import Mathlib

/-! Verification development for the media-encoder worker (`src/handler.py`).

The Python module is shallowly embedded below.  External collaborators are
modelled explicitly:

* the object store (boto3/R2) and the external `ffmpeg` tool are oracles:
  an `Oracle` value records the outcome each external call would produce,
  and every call that is issued is logged in an event trace;
* the local filesystem is a small explicit state (`FS`): a set of existing
  directories and a set of existing files, each file keyed by the directory
  that directly contains it together with its filename;
* Python exceptions that escape `handler` are the `Except.error` case of the
  result; a response value delivered to the hosting framework is `Except.ok`.

All definitions are translated from the source file; doc comments point to
the corresponding lines of `src/handler.py`. -/

namespace MediaEncoder

/-- A single-quote character as a string (used in literal error messages). -/
def sq : String := "\x27"

/-- Decimal digit to character, as produced by C-style integer formatting. -/
def digitChar : Nat → Char
  | 0 => '0' | 1 => '1' | 2 => '2' | 3 => '3' | 4 => '4'
  | 5 => '5' | 6 => '6' | 7 => '7' | 8 => '8' | _ => '9'

/-- Fuel-driven decimal rendering (most significant digit first).  The fuel
is always instantiated with the number itself, which is ample. -/
def natDigitsAux : Nat → Nat → List Char
  | 0, n => [digitChar n]
  | fuel + 1, n =>
    if n < 10 then [digitChar n]
    else natDigitsAux fuel (n / 10) ++ [digitChar (n % 10)]

/-- Decimal digits of a natural number, as characters. -/
def natDigits (n : Nat) : List Char := natDigitsAux n n

/-- `%03d` formatting: the decimal digits of `n`, zero-padded on the left to
a minimum width of three characters. -/
def pad3L (n : Nat) : List Char :=
  List.replicate (3 - (natDigits n).length) '0' ++ natDigits n

/-- Characters of the `i`-th thumbnail filename produced by the ffmpeg output
pattern `thumb_%03d.jpg` (`src/handler.py` line 63; ffmpeg numbers frames
starting from 1). -/
def thumbChars (i : Nat) : List Char :=
  ['t', 'h', 'u', 'm', 'b', '_'] ++ pad3L i ++ ['.', 'j', 'p', 'g']

/-- The `i`-th thumbnail filename, e.g. `thumb_001.jpg`. -/
def thumbName (i : Nat) : String := String.mk (thumbChars i)

/-- Lexicographic comparison of character lists by code point, exactly as
Python compares strings (`sorted` on `str`). -/
def lexLe : List Char → List Char → Bool
  | [], _ => true
  | _ :: _, [] => false
  | x :: xs, y :: ys =>
    if x.toNat < y.toNat then true
    else if y.toNat < x.toNat then false
    else lexLe xs ys

/-- Python's `<=` on strings, as a proposition. -/
def strLeP (a b : String) : Prop := lexLe a.data b.data = true

instance : DecidableRel strLeP := fun a b =>
  inferInstanceAs (Decidable (lexLe a.data b.data = true))

/-- Python's `sorted` on a list of strings (a stable sort by `strLeP`). -/
def pySorted (l : List String) : List String := l.insertionSort strLeP

/-- Characters of `os.path.basename`: the suffix after the last `/`. -/
def basenameL (l : List Char) : List Char :=
  ((l.reverse.takeWhile (fun c => !(c == '/'))).reverse)

/-- `os.path.basename` for POSIX paths. -/
def basename (s : String) : String := String.mk (basenameL s.data)

/-- Index of the last occurrence of `c` in `l`, or `-1` (Python `str.rfind`). -/
def lastIdx (l : List Char) (c : Char) : Int :=
  match l with
  | [] => -1
  | x :: xs =>
    let r := lastIdx xs c
    if r ≥ 0 then r + 1 else if x == c then 0 else -1

/-- `posixpath.splitext` on a character list: split at the last dot that
follows the last separator, unless every character between them is a dot
(so that dot-initial filenames such as `.bashrc` have no extension). -/
def splitextL (p : List Char) : List Char × List Char :=
  let sepIdx := lastIdx p '/'
  let dotIdx := lastIdx p '.'
  if dotIdx > sepIdx then
    let sN := (sepIdx + 1).toNat
    let dN := dotIdx.toNat
    if ((p.drop sN).take (dN - sN)).all (fun c => c == '.') then (p, [])
    else (p.take dN, p.drop dN)
  else (p, [])

/-- `os.path.splitext` for POSIX paths. -/
def splitext (s : String) : String × String :=
  let r := splitextL s.data
  (String.mk r.1, String.mk r.2)

/-- `os.path.join dir f` for the shapes the handler uses: `f` is returned
unchanged when absolute, otherwise appended to `dir` after a separator. -/
def pathJoin (d f : String) : String :=
  match f.data with
  | '/' :: _ => f
  | _ => d ++ "/" ++ f

/-- Whether a filename is hidden from the glob pattern `*`: Python's `glob`
does not match names that begin with a dot. -/
def charListHidden : List Char → Bool
  | [] => false
  | c :: _ => c == '.'

/-- Hidden-from-`glob` test on a string filename. -/
def hiddenName (s : String) : Bool := charListHidden s.data

/-- The process environment variables consulted at module load
(`src/handler.py` lines 9-23 and 170). -/
structure Config where
  cloudflareAccountId : Option String
  r2AccessKey : Option String
  r2SecretKey : Option String
  r2BucketName : Option String
  r2PublicUrl : Option String

/-- Module-level configuration resolution (`src/handler.py` lines 9-23):
when all four required variables are present the endpoint URL is built and
the bucket name retained; if any is missing, `S3_ENDPOINT_URL` is `None`,
modelled here as `none`. -/
def resolveConfig (c : Config) : Option (String × String) :=
  match c.cloudflareAccountId, c.r2AccessKey, c.r2SecretKey, c.r2BucketName with
  | some a, some _, some _, some b =>
    some ("https://" ++ a ++ ".r2.cloudflarestorage.com", b)
  | _, _, _, _ => none

/-- Error message for a missing configuration (`src/handler.py` line 103). -/
def misconfigMsg : String :=
  "Server is misconfigured. Missing R2 environment variables."

/-- Error message for a missing job key (`src/handler.py` line 112). -/
def missingKeyMsg : String :=
  "Missing " ++ sq ++ "source_video_key" ++ sq ++ " in job input."

/-- Placeholder message of the analysis stage (`src/handler.py` line 93). -/
def aiPendingMsg : String := "AI analysis will be implemented in the future."

/-- Fallback public base URL (`src/handler.py` line 170). -/
def defaultPublicUrl : String := "https://YOUR-PUBLIC-URL.dev"

/-- The structured result of the analysis stage. -/
structure AnalysisResult where
  status : String
  message : String
deriving Repr, DecidableEq

/-- `analyze_thumbnails_ai` (`src/handler.py` lines 79-95): a pure function
returning a fixed placeholder, independent of its input. -/
def analyze_thumbnails_ai (_thumbnailPaths : List String) : AnalysisResult :=
  ⟨"pending", aiPendingMsg⟩

/-- The job argument delivered by the hosting framework; a missing
`input` field raises `KeyError` when subscripted. -/
structure JobInput where
  source_video_key : Option String
deriving Repr, DecidableEq

/-- The framework-level job object. -/
structure Job where
  input : Option JobInput
deriving Repr, DecidableEq

/-- A Python exception escaping `handler`. -/
inductive PyErr where
  | keyError (key : String)
  | osError (msg : String)
deriving Repr, DecidableEq

/-- The job response returned to the framework: the success shape of
`src/handler.py` lines 165-171 or the error shape of line 175. -/
inductive Response where
  | success (transcodedVideoKey : String) (thumbnailKeys : List String)
      (aiAnalysis : AnalysisResult) (publicBaseUrl : String)
  | error (msg : String)
deriving Repr, DecidableEq

/-- An external call issued by the handler. -/
inductive Event where
  | download (bucket key localPath : String)
  | upload (localPath bucket key : String)
  | spawn (cmd : List String)
deriving Repr, DecidableEq

/-- Outcomes of the external collaborators for one invocation: the random
job identifier, the result of the download, of the two ffmpeg runs (the
thumbnail run also yields how many frames were written), and the result of
each upload, keyed by object key.  An `Except.error` is the `str` of the
exception the Python call would raise. -/
structure Oracle where
  jobId : String
  downloadRes : Except String Unit
  transcodeRes : Except String Unit
  thumbRes : Except String Nat
  uploadRes : String → Except String Unit

/-- The local filesystem: existing directories, and existing files as
(containing directory, filename) pairs. -/
structure FS where
  dirs : List String
  files : List (String × String)
deriving Repr, DecidableEq

/-- The empty filesystem. -/
def FS.empty : FS := ⟨[], []⟩

/-- `os.path.exists` on a directory path. -/
def FS.dirExists (fs : FS) (d : String) : Bool := fs.dirs.contains d

/-- `os.makedirs(d, exist_ok=True)`. -/
def FS.mkdir (fs : FS) (d : String) : FS :=
  if fs.dirs.contains d then fs else ⟨d :: fs.dirs, fs.files⟩

/-- Creation of a file `name` directly inside directory `d` (overwriting
any existing file of the same path). -/
def FS.addFile (fs : FS) (d name : String) : FS :=
  if fs.files.contains (d, name) then fs else ⟨fs.dirs, (d, name) :: fs.files⟩

/-- `os.rmdir d` after its emptiness check has succeeded. -/
def FS.rmdir (fs : FS) (d : String) : FS :=
  ⟨fs.dirs.filter (fun x => !(x == d)), fs.files⟩

/-- Removal of a set of files (`os.remove` over a list). -/
def FS.removeFiles (fs : FS) (l : List (String × String)) : FS :=
  ⟨fs.dirs, fs.files.filter (fun p => !(l.contains p))⟩

/-- `glob(f"{dir_path}/*")` (`src/handler.py` line 183): the files directly
inside `d` whose names do not begin with a dot — the `*` pattern skips
hidden files. -/
def globStar (fs : FS) (d : String) : List (String × String) :=
  fs.files.filter (fun p => p.1 == d && !(charListHidden p.2.data))

/-- One iteration of the cleanup loop (`src/handler.py` lines 181-185):
if the directory exists, remove every file matched by `glob(dir/*)`, then
`os.rmdir` it; `rmdir` raises `OSError` if a file is still inside. -/
def cleanupDir (fs : FS) (d : String) : Option PyErr × FS :=
  if fs.dirExists d then
    let fs2 := fs.removeFiles (globStar fs d)
    if fs2.files.any (fun p => p.1 == d) then
      (some (PyErr.osError ("Directory not empty: " ++ d)), fs2)
    else (none, fs2.rmdir d)
  else (none, fs)

/-- The whole `finally` block (`src/handler.py` lines 177-186): clean the
input directory, then — if that did not raise — the output directory. -/
def cleanup (fs : FS) (d1 d2 : String) : Option PyErr × FS :=
  match cleanupDir fs d1 with
  | (some e, fs2) => (some e, fs2)
  | (none, fs2) => cleanupDir fs2 d2

/-- Leaving the `try` with pending result `r` (a return value, since the
`except Exception` clause has already converted any body failure into an
error response): the `finally` block runs; if it raises, its exception
replaces `r`, otherwise `r` is delivered. -/
def finallyCleanup (r : Response) (fs : FS) (evs : List Event)
    (d1 d2 : String) : Except PyErr Response × FS × List Event :=
  match cleanup fs d1 d2 with
  | (none, fs2) => (Except.ok r, fs2, evs)
  | (some e, fs2) => (Except.error e, fs2, evs)

/-- The fixed transcode command line (`src/handler.py` lines 44-53). -/
def transcodeCmd (inputPath outputPath : String) : List String :=
  ["ffmpeg", "-i", inputPath, "-c:v", "libx264", "-preset", "fast",
   "-c:a", "aac", "-b:a", "128k", "-movflags", "+faststart", outputPath]

/-- The fixed thumbnail command line (`src/handler.py` lines 64-70). -/
def thumbnailCmd (inputPath outputPattern : String) : List String :=
  ["ffmpeg", "-i", inputPath, "-vf", "fps=1/10", "-q:v", "3", outputPattern]

/-- The set of thumbnail files ffmpeg writes when it samples `n` frames,
in capture order (frame indices 1..n). -/
def thumbGlobResult (outDir : String) (n : Nat) : List String :=
  (List.range n).map (fun k => pathJoin outDir (thumbName (k + 1)))

/-- The list returned by `generate_thumbnails` after a successful ffmpeg
run that wrote `n` frames (`src/handler.py` line 74):
`sorted(glob(os.path.join(output_dir, 'thumb_*.jpg')))`.  `glob` yields the
matching paths in unspecified order; since the names are distinct, sorting
any such order yields the same list, so the capture order is used here. -/
def generate_thumbnails (outDir : String) (n : Nat) : List String :=
  pySorted (thumbGlobResult outDir n)

/-- Registration of the `n` thumbnail files in the filesystem state. -/
def addThumbFiles (fs : FS) (d : String) : Nat → FS
  | 0 => fs
  | n + 1 => (addThumbFiles fs d n).addFile d (thumbName (n + 1))

/-- The thumbnail upload loop (`src/handler.py` lines 152-158): upload each
path to `<pfx>/thumbnails/<basename>`, collecting the keys in order; a
failing upload raises (aborting the loop) after the call was issued. -/
def uploadThumbs (o : Oracle) (bucket pfx : String) :
    List String → Except String (List String) × List Event
  | [] => (Except.ok [], [])
  | p :: ps =>
    let key := pfx ++ "/thumbnails/" ++ basename p
    let ev := Event.upload p bucket key
    match o.uploadRes key with
    | Except.error msg => (Except.error msg, [ev])
    | Except.ok _ =>
      match uploadThumbs o bucket pfx ps with
      | (Except.error msg, evs) => (Except.error msg, ev :: evs)
      | (Except.ok keys, evs) => (Except.ok (key :: keys), ev :: evs)

/-- `handler` (`src/handler.py` lines 98-186), as a function of the
configuration, the oracle for the external collaborators, the job argument
and the initial filesystem.  It returns the delivered response (or the
escaping exception), the final filesystem, and the trace of external
calls. -/
def handler (cfg : Config) (o : Oracle) (job : Job) (fs0 : FS) :
    Except PyErr Response × FS × List Event :=
  match resolveConfig cfg with
  | none => (Except.ok (Response.error misconfigMsg), fs0, [])
  | some (_, bucket) =>
    match job.input with
    | none => (Except.error (PyErr.keyError "input"), fs0, [])
    | some ji =>
      match ji.source_video_key with
      | none => (Except.ok (Response.error missingKeyMsg), fs0, [])
      | some key =>
        let jobId := o.jobId
        let localInputDir := "/tmp/" ++ jobId ++ "_input"
        let localOutputDir := "/tmp/" ++ jobId ++ "_output"
        let fs1 := (fs0.mkdir localInputDir).mkdir localOutputDir
        let localInputPath := pathJoin localInputDir (basename key)
        let transcodedFilename := (splitext (basename key)).1 ++ "_processed.mp4"
        let localTranscodedPath := pathJoin localOutputDir transcodedFilename
        let dlEv := Event.download bucket key localInputPath
        match o.downloadRes with
        | Except.error msg =>
          finallyCleanup (Response.error msg) fs1 [dlEv] localInputDir localOutputDir
        | Except.ok _ =>
          let fs2 := fs1.addFile localInputDir (basename key)
          let tEv := Event.spawn (transcodeCmd localInputPath localTranscodedPath)
          match o.transcodeRes with
          | Except.error msg =>
            finallyCleanup (Response.error msg) fs2 [dlEv, tEv] localInputDir localOutputDir
          | Except.ok _ =>
            let fs3 := fs2.addFile localOutputDir transcodedFilename
            let gEv := Event.spawn
              (thumbnailCmd localTranscodedPath (pathJoin localOutputDir "thumb_%03d.jpg"))
            match o.thumbRes with
            | Except.error msg =>
              finallyCleanup (Response.error msg) fs3 [dlEv, tEv, gEv] localInputDir localOutputDir
            | Except.ok n =>
              let fs4 := addThumbFiles fs3 localOutputDir n
              let thumbnailPaths := generate_thumbnails localOutputDir n
              let aiResults := analyze_thumbnails_ai thumbnailPaths
              let outPfx := "processed/" ++ jobId
              let transcodedKey := outPfx ++ "/" ++ transcodedFilename
              let uEv := Event.upload localTranscodedPath bucket transcodedKey
              match o.uploadRes transcodedKey with
              | Except.error msg =>
                finallyCleanup (Response.error msg) fs4 [dlEv, tEv, gEv, uEv]
                  localInputDir localOutputDir
              | Except.ok _ =>
                match uploadThumbs o bucket outPfx thumbnailPaths with
                | (Except.error msg, tevs) =>
                  finallyCleanup (Response.error msg) fs4
                    ([dlEv, tEv, gEv, uEv] ++ tevs) localInputDir localOutputDir
                | (Except.ok keys, tevs) =>
                  finallyCleanup
                    (Response.success transcodedKey keys aiResults
                      ((cfg.r2PublicUrl.getD defaultPublicUrl) ++ "/" ++ outPfx))
                    fs4 ([dlEv, tEv, gEv, uEv] ++ tevs) localInputDir localOutputDir

end MediaEncoder

deriving instance DecidableEq for Except

namespace MediaEncoder

/-! ## Generic list and filesystem lemmas -/

theorem contains_eq_true_iff {α : Type} [BEq α] [LawfulBEq α] (l : List α) (a : α) :
    l.contains a = true ↔ a ∈ l := List.elem_iff

theorem contains_eq_false_iff {α : Type} [BEq α] [LawfulBEq α] (l : List α) (a : α) :
    l.contains a = false ↔ a ∉ l := by
  rw [← Bool.not_eq_true]; exact not_congr (contains_eq_true_iff l a)

theorem dirs_addFile (fs : FS) (d name : String) :
    (fs.addFile d name).dirs = fs.dirs := by
  unfold FS.addFile; split <;> rfl

theorem dirs_addThumbFiles (fs : FS) (d : String) (n : Nat) :
    (addThumbFiles fs d n).dirs = fs.dirs := by
  induction n with
  | zero => rfl
  | succ n ih => rw [addThumbFiles, dirs_addFile, ih]

theorem addFile_files_shape (fs : FS) (d name : String) :
    ∃ hd, (fs.addFile d name).files = hd ++ fs.files ∧ ∀ p ∈ hd, p = (d, name) := by
  unfold FS.addFile; split
  · exact ⟨[], rfl, by simp⟩
  · exact ⟨[(d, name)], rfl, by simp⟩

theorem addThumbFiles_files_shape (fs : FS) (d : String) (n : Nat) :
    ∃ J, (addThumbFiles fs d n).files = J ++ fs.files ∧
      ∀ p ∈ J, ∃ i, 1 ≤ i ∧ i ≤ n ∧ p = (d, thumbName i) := by
  induction n with
  | zero => exact ⟨[], rfl, by simp⟩
  | succ n ih =>
    obtain ⟨J, hJ, hmem⟩ := ih
    obtain ⟨hd, hhd, hhm⟩ := addFile_files_shape (addThumbFiles fs d n) d (thumbName (n + 1))
    refine ⟨hd ++ J, ?_, ?_⟩
    · rw [addThumbFiles, hhd, hJ, List.append_assoc]
    · intro p hp
      rcases List.mem_append.mp hp with h | h
      · exact ⟨n + 1, by omega, by omega, hhm p h⟩
      · obtain ⟨i, h1, h2, h3⟩ := hmem p h
        exact ⟨i, h1, by omega, h3⟩

theorem mkdir_of_not_mem (fs : FS) (d : String) (h : d ∉ fs.dirs) :
    fs.mkdir d = ⟨d :: fs.dirs, fs.files⟩ := by
  unfold FS.mkdir
  rw [if_neg]
  rw [(contains_eq_false_iff fs.dirs d).mpr h]
  simp

theorem cleanupDir_absent (fs : FS) (d : String) (hd : fs.dirExists d = false) :
    cleanupDir fs d = (none, fs) := by
  unfold cleanupDir
  rw [hd]
  simp

theorem cleanupDir_of_clean (fs : FS) (d : String)
    (hd : fs.dirExists d = true)
    (h : ∀ p ∈ fs.files, p.1 = d → charListHidden p.2.data = false) :
    cleanupDir fs d =
      (none, ⟨fs.dirs.filter (fun x => !(x == d)),
              fs.files.filter (fun p => !(p.1 == d))⟩) := by
  unfold cleanupDir
  rw [if_pos hd]
  have hglob : globStar fs d = fs.files.filter (fun p => p.1 == d) := by
    unfold globStar
    apply List.filter_congr
    intro p hp
    by_cases hpd : p.1 = d
    · simp [hpd, h p hp hpd]
    · simp [hpd]
  have hrem : fs.files.filter (fun p => !((globStar fs d).contains p)) =
      fs.files.filter (fun p => !(p.1 == d)) := by
    apply List.filter_congr
    intro p hp
    by_cases hpd : p.1 = d
    · have hmem : p ∈ globStar fs d := by
        rw [hglob]; exact List.mem_filter.mpr ⟨hp, by simp [hpd]⟩
      rw [(contains_eq_true_iff _ p).mpr hmem]
      simp [hpd]
    · have hmem : p ∉ globStar fs d := by
        rw [hglob]; intro hc
        exact hpd (by simpa using (List.mem_filter.mp hc).2)
      rw [(contains_eq_false_iff _ p).mpr hmem]
      simp [hpd]
  have hempty : (fs.files.filter (fun p => !(p.1 == d))).any (fun p => p.1 == d) = false := by
    rw [List.any_eq_false]
    intro p hp
    have := (List.mem_filter.mp hp).2
    simpa using this
  unfold FS.removeFiles
  rw [hrem]
  simp only [hempty]
  rfl

theorem cleanup_of_clean (fs : FS) (d1 d2 : String) (hne : d2 ≠ d1)
    (h1 : fs.dirExists d1 = true) (h2 : fs.dirExists d2 = true)
    (h : ∀ p ∈ fs.files, (p.1 = d1 ∨ p.1 = d2) → charListHidden p.2.data = false) :
    cleanup fs d1 d2 =
      (none, ⟨(fs.dirs.filter (fun x => !(x == d1))).filter (fun x => !(x == d2)),
              (fs.files.filter (fun p => !(p.1 == d1))).filter (fun p => !(p.1 == d2))⟩) := by
  unfold cleanup
  rw [cleanupDir_of_clean fs d1 h1 (fun p hp hpd => h p hp (Or.inl hpd))]
  dsimp only
  have h2b : FS.dirExists ⟨fs.dirs.filter (fun x => !(x == d1)),
      fs.files.filter (fun p => !(p.1 == d1))⟩ d2 = true := by
    unfold FS.dirExists
    rw [contains_eq_true_iff]
    exact List.mem_filter.mpr ⟨(contains_eq_true_iff _ _).mp h2, by simp [hne]⟩
  rw [cleanupDir_of_clean _ d2 h2b
    (fun p hp hpd => h p (List.mem_filter.mp hp).1 (Or.inr hpd))]

/-! ## Hidden-filename lemmas -/

theorem data_append (a b : String) : (a ++ b).data = a.data ++ b.data := rfl

theorem charListHidden_append (a b : List Char) (ha : charListHidden a = false)
    (hb : charListHidden b = false) : charListHidden (a ++ b) = false := by
  cases a with
  | nil => simpa using hb
  | cons c cs => simpa using ha

theorem thumbChars_not_hidden (i : Nat) : charListHidden (thumbChars i) = false := rfl

theorem lastIdx_ge_neg_one (l : List Char) (c : Char) : lastIdx l c ≥ -1 := by
  induction l with
  | nil => simp [lastIdx]
  | cons x xs ih =>
    unfold lastIdx
    dsimp only
    split
    · omega
    · split <;> omega

theorem lastIdx_nil (c : Char) : lastIdx [] c = -1 := rfl

theorem splitextL_stem_not_hidden (m : List Char) (h : charListHidden m = false) :
    charListHidden (splitextL m).1 = false := by
  unfold splitextL
  simp only
  split
  · rename_i h1
    split
    · exact h
    · rename_i h2
      have hsep : lastIdx m '/' ≥ -1 := lastIdx_ge_neg_one m '/'
      have hdot1 : lastIdx m '.' ≥ 1 := by
        by_contra hc
        have hd0 : lastIdx m '.' = 0 := by omega
        have hs0 : lastIdx m '/' = -1 := by omega
        apply h2
        rw [hd0, hs0]
        simp
      cases m with
      | nil => rw [lastIdx_nil] at hdot1; omega
      | cons c cs =>
        obtain ⟨k, hk⟩ : ∃ k, (lastIdx (c :: cs) '.').toNat = k + 1 :=
          ⟨(lastIdx (c :: cs) '.').toNat - 1, by omega⟩
        rw [hk, List.take_succ_cons]
        simpa using h
  · exact h

theorem stem_suffix_not_hidden (m : List Char) (suffix : List Char)
    (hs : charListHidden suffix = false) (h : charListHidden m = false) :
    charListHidden ((splitextL m).1 ++ suffix) = false :=
  charListHidden_append _ _ (splitextL_stem_not_hidden m h) hs

theorem transcodedFilename_not_hidden (key : String)
    (h : charListHidden (basenameL key.data) = false) :
    charListHidden ((splitext (basename key)).1 ++ "_processed.mp4").data = false := by
  have : ((splitext (basename key)).1 ++ "_processed.mp4").data =
      (splitextL (basenameL key.data)).1 ++ "_processed.mp4".data := rfl
  rw [this]
  exact stem_suffix_not_hidden _ _ (by decide) h

/-! ## Scratch-directory cleanup lemmas -/

theorem scratch_dirs_ne (j : String) :
    ("/tmp/" ++ j ++ "_output") ≠ ("/tmp/" ++ j ++ "_input") := by
  intro h
  have h1 : ("/tmp/" ++ j).data ++ "_output".data = ("/tmp/" ++ j).data ++ "_input".data := by
    have h0 := congrArg String.data h
    rw [data_append, data_append] at h0
    exact h0
  have h2 := List.append_cancel_left h1
  exact absurd h2 (by decide)

theorem filter_ne_self (l : List String) (d : String) (h : ∀ x ∈ l, x ≠ d) :
    l.filter (fun x => !(x == d)) = l :=
  List.filter_eq_self.mpr (fun a ha => by simp [h a ha])

theorem filter_fst_ne_self (l : List (String × String)) (d : String)
    (h : ∀ p ∈ l, p.1 ≠ d) :
    l.filter (fun p => !(p.1 == d)) = l :=
  List.filter_eq_self.mpr (fun a ha => by simp [h a ha])

theorem addFile_of_not_mem (fs : FS) (d name : String) (h : (d, name) ∉ fs.files) :
    fs.addFile d name = ⟨fs.dirs, (d, name) :: fs.files⟩ := by
  unfold FS.addFile
  rw [(contains_eq_false_iff _ _).mpr h]
  simp

/-- After a job body whose scratch directories `din`, `dout` were freshly
created on top of `fs0` and whose added files `J` all live in the scratch
directories and have non-hidden names, the `finally` cleanup removes the
added files and both directories, restoring exactly `fs0`. -/
theorem cleanup_scratch_final (fsX fs0 : FS) (din dout : String)
    (J : List (String × String))
    (hdirs : fsX.dirs = dout :: din :: fs0.dirs)
    (hfilesX : fsX.files = J ++ fs0.files)
    (hne : dout ≠ din)
    (hdin : din ∉ fs0.dirs) (hdout : dout ∉ fs0.dirs)
    (hfiles : ∀ p ∈ fs0.files, p.1 ≠ din ∧ p.1 ≠ dout)
    (hJ : ∀ p ∈ J, (p.1 = din ∨ p.1 = dout) ∧ charListHidden p.2.data = false) :
    cleanup fsX din dout = (none, fs0) := by
  have h1 : fsX.dirExists din = true := by
    unfold FS.dirExists
    rw [hdirs, contains_eq_true_iff]
    simp
  have h2 : fsX.dirExists dout = true := by
    unfold FS.dirExists
    rw [hdirs, contains_eq_true_iff]
    simp
  have hclean : ∀ p ∈ fsX.files, (p.1 = din ∨ p.1 = dout) →
      charListHidden p.2.data = false := by
    intro p hp hpd
    rw [hfilesX] at hp
    rcases List.mem_append.mp hp with h | h
    · exact (hJ p h).2
    · rcases hpd with h' | h'
      · exact absurd h' (hfiles p h).1
      · exact absurd h' (hfiles p h).2
  rw [cleanup_of_clean fsX din dout hne h1 h2 hclean]
  have hdirsF : (fsX.dirs.filter (fun x => !(x == din))).filter (fun x => !(x == dout)) =
      fs0.dirs := by
    rw [hdirs]
    rw [List.filter_cons_of_pos (by simp [hne]), List.filter_cons_of_neg (by simp)]
    rw [List.filter_cons_of_neg (by simp)]
    rw [filter_ne_self fs0.dirs din (fun x hx hEq => hdin (hEq ▸ hx))]
    rw [filter_ne_self fs0.dirs dout (fun x hx hEq => hdout (hEq ▸ hx))]
  have hfilesF : (fsX.files.filter (fun p => !(p.1 == din))).filter
      (fun p => !(p.1 == dout)) = fs0.files := by
    rw [hfilesX, List.filter_append, List.filter_append]
    have eJ : (J.filter (fun p => !(p.1 == din))).filter (fun p => !(p.1 == dout)) = [] := by
      rw [List.filter_eq_nil_iff]
      intro p hp
      have hpJ := List.mem_filter.mp hp
      have hdd := (hJ p hpJ.1).1
      rcases hdd with h' | h'
      · exfalso
        have := hpJ.2
        simp [h'] at this
      · simp [h']
    rw [eJ]
    rw [filter_fst_ne_self fs0.files din (fun p hp => (hfiles p hp).1)]
    rw [filter_fst_ne_self fs0.files dout (fun p hp => (hfiles p hp).2)]
    rfl
  rw [hdirsF, hfilesF]

/-! ## Theorems -/

/-- C9: for every thumbnail-path list, including the empty list, the analysis
stage is a pure function returning the fixed placeholder mapping with status
`pending` and the explanatory message, independent of its input. -/
theorem C9_analysis_placeholder (paths : List String) :
    analyze_thumbnails_ai paths = ⟨"pending", aiPendingMsg⟩ := rfl

/-- C8: whenever the required storage configuration is absent at process
start, every job — regardless of its input — returns the misconfiguration
error response, with no external call issued and the filesystem untouched. -/
theorem C8_misconfigured_rejects_every_job (cfg : Config)
    (hcfg : resolveConfig cfg = none) (o : Oracle) (job : Job) (fs0 : FS) :
    handler cfg o job fs0 = (Except.ok (Response.error misconfigMsg), fs0, []) := by
  unfold handler; rw [hcfg]

/-- Witness for C8 at a concrete unconfigured environment and job. -/
theorem C8_misconfigured_rejects_every_job_witness :
    resolveConfig ⟨none, some "k", some "s", some "b", none⟩ = none ∧
    handler ⟨none, some "k", some "s", some "b", none⟩
        ⟨"j8", Except.ok (), Except.ok (), Except.ok 0, fun _ => Except.ok ()⟩
        ⟨some ⟨some "videos/clip.mov"⟩⟩ FS.empty =
      (Except.ok (Response.error misconfigMsg), FS.empty, []) :=
  ⟨rfl, C8_misconfigured_rejects_every_job ⟨none, some "k", some "s", some "b", none⟩ rfl _ _ _⟩

/-- C10: on a configured process, a job argument lacking the `input` key
makes `handler` raise an uncaught `KeyError` (no response is returned, no
directory is created, no external call is issued): the catch-all boundary
only starts at the download step. -/
theorem C10_missing_input_key_raises (cfg : Config) (ep bkt : String)
    (hcfg : resolveConfig cfg = some (ep, bkt)) (o : Oracle) (fs0 : FS) :
    handler cfg o ⟨none⟩ fs0 = (Except.error (PyErr.keyError "input"), fs0, []) := by
  unfold handler; rw [hcfg]

/-- Witness for C10 at a concrete configured environment. -/
theorem C10_missing_input_key_raises_witness :
    resolveConfig ⟨some "a", some "k", some "s", some "b", none⟩ =
      some ("https://a.r2.cloudflarestorage.com", "b") ∧
    handler ⟨some "a", some "k", some "s", some "b", none⟩
        ⟨"j10", Except.ok (), Except.ok (), Except.ok 0, fun _ => Except.ok ()⟩
        ⟨none⟩ FS.empty =
      (Except.error (PyErr.keyError "input"), FS.empty, []) :=
  ⟨rfl, C10_missing_input_key_raises ⟨some "a", some "k", some "s", some "b", none⟩
    "https://a.r2.cloudflarestorage.com" "b" rfl _ _⟩

/-- C3 (amended): a job input with the `source_video_key` field absent gets
the missing-key error response immediately: the filesystem is untouched (no
scratch directory is created) and no external call is issued. -/
theorem C3_missing_key_fails_fast (cfg : Config) (ep bkt : String)
    (hcfg : resolveConfig cfg = some (ep, bkt)) (o : Oracle) (fs0 : FS) :
    handler cfg o ⟨some ⟨none⟩⟩ fs0 =
      (Except.ok (Response.error missingKeyMsg), fs0, []) := by
  unfold handler; rw [hcfg]

/-- Witness for C3 at a concrete configured environment. -/
theorem C3_missing_key_fails_fast_witness :
    resolveConfig ⟨some "a", some "k", some "s", some "b", none⟩ =
      some ("https://a.r2.cloudflarestorage.com", "b") ∧
    handler ⟨some "a", some "k", some "s", some "b", none⟩
        ⟨"j3", Except.ok (), Except.ok (), Except.ok 0, fun _ => Except.ok ()⟩
        ⟨some ⟨none⟩⟩ FS.empty =
      (Except.ok (Response.error missingKeyMsg), FS.empty, []) :=
  ⟨rfl, C3_missing_key_fails_fast ⟨some "a", some "k", some "s", some "b", none⟩
    "https://a.r2.cloudflarestorage.com" "b" rfl _ _⟩

/-- C3 counterexample: an *empty* `source_video_key` is not rejected.  The
handler proceeds past validation: it issues the network download (which here
fails) and returns that download error, not the missing-key error. -/
theorem C3_empty_key_not_rejected :
    handler ⟨some "acct", some "ak", some "sk", some "bkt", none⟩
        ⟨"c3", Except.error "download failed", Except.ok (), Except.ok 0,
         fun _ => Except.ok ()⟩
        ⟨some ⟨some ""⟩⟩ FS.empty =
      (Except.ok (Response.error "download failed"), FS.empty,
       [Event.download "bkt" "" "/tmp/c3_input/"]) ∧
    "download failed" ≠ missingKeyMsg :=
  ⟨by decide, by decide⟩

/-- C1: evaluation of the handler at a job whose downloaded file has a
dot-initial name.  The cleanup `glob` pattern `*` skips the hidden file, so
`os.rmdir` raises `OSError`, the exception escapes `handler`, and both
scratch directories (and the hidden file) still exist afterwards. -/
theorem C1_hidden_file_breaks_cleanup :
    handler ⟨some "acct", some "ak", some "sk", some "bkt", none⟩
        ⟨"j", Except.ok (), Except.error "boom", Except.ok 0, fun _ => Except.ok ()⟩
        ⟨some ⟨some "videos/.hidden"⟩⟩ FS.empty =
      (Except.error (PyErr.osError "Directory not empty: /tmp/j_input"),
       ⟨["/tmp/j_output", "/tmp/j_input"], [("/tmp/j_input", ".hidden")]⟩,
       [Event.download "bkt" "videos/.hidden" "/tmp/j_input/.hidden",
        Event.spawn (transcodeCmd "/tmp/j_input/.hidden"
          "/tmp/j_output/.hidden_processed.mp4")]) := by
  decide

/-- C2: a failure raised by the cleanup step replaces the response.  With a
dot-initial downloaded filename the body's error response is discarded and
the framework receives an unhandled `OSError`; the same oracle outcomes with
an ordinary filename deliver the body's error response. -/
theorem C2_cleanup_failure_masks_response :
    (handler ⟨some "a1", some "k1", some "s1", some "b1", none⟩
        ⟨"k", Except.ok (), Except.error "transcode failed", Except.ok 0,
         fun _ => Except.ok ()⟩
        ⟨some ⟨some "v/.conf"⟩⟩ FS.empty).1 =
      Except.error (PyErr.osError "Directory not empty: /tmp/k_input") ∧
    (handler ⟨some "a1", some "k1", some "s1", some "b1", none⟩
        ⟨"k", Except.ok (), Except.error "transcode failed", Except.ok 0,
         fun _ => Except.ok ()⟩
        ⟨some ⟨some "v/plain.mov"⟩⟩ FS.empty).1 =
      Except.ok (Response.error "transcode failed") :=
  ⟨by decide, by decide⟩

/-- C4 (amended): for every job whose transcode tool invocation exits
non-zero — provided the downloaded file's basename is not dot-initial and
the scratch directories are fresh — the handler returns the error-shaped
response carrying the tool failure's message, the only external calls are
the download and the transcode spawn (no upload ever occurs), and the
filesystem is restored to its initial state, so both scratch directories
are removed. -/
theorem C4_transcode_failure_no_upload (cfg : Config) (ep bkt : String)
    (hcfg : resolveConfig cfg = some (ep, bkt))
    (o : Oracle) (key msg : String) (fs0 : FS)
    (hdl : o.downloadRes = Except.ok ())
    (htr : o.transcodeRes = Except.error msg)
    (hhid : hiddenName (basename key) = false)
    (hdin : ("/tmp/" ++ o.jobId ++ "_input") ∉ fs0.dirs)
    (hdout : ("/tmp/" ++ o.jobId ++ "_output") ∉ fs0.dirs)
    (hfiles : ∀ p ∈ fs0.files, p.1 ≠ "/tmp/" ++ o.jobId ++ "_input" ∧
      p.1 ≠ "/tmp/" ++ o.jobId ++ "_output") :
    handler cfg o ⟨some ⟨some key⟩⟩ fs0 =
      (Except.ok (Response.error msg), fs0,
       [Event.download bkt key
          (pathJoin ("/tmp/" ++ o.jobId ++ "_input") (basename key)),
        Event.spawn (transcodeCmd
          (pathJoin ("/tmp/" ++ o.jobId ++ "_input") (basename key))
          (pathJoin ("/tmp/" ++ o.jobId ++ "_output")
            ((splitext (basename key)).1 ++ "_processed.mp4")))]) ∧
    (handler cfg o ⟨some ⟨some key⟩⟩ fs0).2.1.dirExists
      ("/tmp/" ++ o.jobId ++ "_input") = false ∧
    (handler cfg o ⟨some ⟨some key⟩⟩ fs0).2.1.dirExists
      ("/tmp/" ++ o.jobId ++ "_output") = false := by
  have hne : ("/tmp/" ++ o.jobId ++ "_output") ≠ ("/tmp/" ++ o.jobId ++ "_input") :=
    scratch_dirs_ne o.jobId
  have hbn : (("/tmp/" ++ o.jobId ++ "_input"), basename key) ∉ fs0.files := fun hc =>
    (hfiles _ hc).1 rfl
  have hmain : handler cfg o ⟨some ⟨some key⟩⟩ fs0 =
      (Except.ok (Response.error msg), fs0,
       [Event.download bkt key
          (pathJoin ("/tmp/" ++ o.jobId ++ "_input") (basename key)),
        Event.spawn (transcodeCmd
          (pathJoin ("/tmp/" ++ o.jobId ++ "_input") (basename key))
          (pathJoin ("/tmp/" ++ o.jobId ++ "_output")
            ((splitext (basename key)).1 ++ "_processed.mp4")))]) := by
    unfold handler
    rw [hcfg]
    dsimp only
    rw [hdl]
    dsimp only
    rw [htr]
    dsimp only
    rw [mkdir_of_not_mem fs0 _ hdin]
    rw [mkdir_of_not_mem ⟨("/tmp/" ++ o.jobId ++ "_input") :: fs0.dirs, fs0.files⟩
      ("/tmp/" ++ o.jobId ++ "_output")
      (by intro hc; rcases List.mem_cons.mp hc with h | h
          · exact hne h
          · exact hdout h)]
    dsimp only
    rw [addFile_of_not_mem ⟨("/tmp/" ++ o.jobId ++ "_output") ::
      ("/tmp/" ++ o.jobId ++ "_input") :: fs0.dirs, fs0.files⟩ _ _ hbn]
    dsimp only
    unfold finallyCleanup
    rw [cleanup_scratch_final _ fs0 _ _ [(("/tmp/" ++ o.jobId ++ "_input"), basename key)]
      rfl rfl hne hdin hdout hfiles
      (by intro p hp
          rcases List.mem_singleton.mp hp with rfl
          exact ⟨Or.inl rfl, hhid⟩)]
  refine ⟨hmain, ?_, ?_⟩ <;> rw [hmain]
  · exact (contains_eq_false_iff fs0.dirs _).mpr hdin
  · exact (contains_eq_false_iff fs0.dirs _).mpr hdout

/-- Witness for C4 at a concrete job: transcode fails on `videos/clip.mov`,
the error response is returned, the trace holds no upload, the scratch
directories are gone. -/
theorem C4_transcode_failure_no_upload_witness :
    (⟨"w4", Except.ok (), Except.error "ffmpeg failed", Except.ok 0,
        fun _ => Except.ok ()⟩ : Oracle).transcodeRes = Except.error "ffmpeg failed" ∧
    handler ⟨some "a4", some "k4", some "s4", some "b4", none⟩
        ⟨"w4", Except.ok (), Except.error "ffmpeg failed", Except.ok 0,
         fun _ => Except.ok ()⟩
        ⟨some ⟨some "videos/clip.mov"⟩⟩ FS.empty =
      (Except.ok (Response.error "ffmpeg failed"), FS.empty,
       [Event.download "b4" "videos/clip.mov" "/tmp/w4_input/clip.mov",
        Event.spawn (transcodeCmd "/tmp/w4_input/clip.mov"
          "/tmp/w4_output/clip_processed.mp4")]) := by
  refine ⟨rfl, ?_⟩
  have h := C4_transcode_failure_no_upload
    ⟨some "a4", some "k4", some "s4", some "b4", none⟩
    "https://a4.r2.cloudflarestorage.com" "b4" rfl
    ⟨"w4", Except.ok (), Except.error "ffmpeg failed", Except.ok 0, fun _ => Except.ok ()⟩
    "videos/clip.mov" "ffmpeg failed" FS.empty rfl rfl (by decide)
    (by simp [FS.empty]) (by simp [FS.empty]) (by simp [FS.empty])
  exact h.1

/-- C4 counterexample: a job whose transcode fails but whose downloaded file
is dot-initial: the handler raises instead of returning an error-shaped
response, and the scratch directories are not removed. -/
theorem C4_transcode_failure_hidden_cex :
    handler ⟨some "a2", some "k2", some "s2", some "b2", none⟩
        ⟨"m", Except.ok (), Except.error "ffmpeg exit 1", Except.ok 0,
         fun _ => Except.ok ()⟩
        ⟨some ⟨some "x/.m"⟩⟩ FS.empty =
      (Except.error (PyErr.osError "Directory not empty: /tmp/m_input"),
       ⟨["/tmp/m_output", "/tmp/m_input"], [("/tmp/m_input", ".m")]⟩,
       [Event.download "b2" "x/.m" "/tmp/m_input/.m",
        Event.spawn (transcodeCmd "/tmp/m_input/.m" "/tmp/m_output/.m_processed.mp4")]) := by
  decide

/-- The thumbnail upload loop when every upload succeeds: the key list is
the thumbnail paths mapped to `<pfx>/thumbnails/<basename>`, in order, and
one upload call is traced per path, in order. -/
theorem uploadThumbs_ok (o : Oracle) (bucket pfx : String)
    (hup : ∀ k, o.uploadRes k = Except.ok ()) (paths : List String) :
    uploadThumbs o bucket pfx paths =
      (Except.ok (paths.map (fun p => pfx ++ "/thumbnails/" ++ basename p)),
       paths.map (fun p => Event.upload p bucket (pfx ++ "/thumbnails/" ++ basename p))) := by
  induction paths with
  | nil => rfl
  | cons p ps ih =>
    unfold uploadThumbs
    dsimp only
    rw [hup]
    dsimp only
    rw [ih]
    rfl

/-- A fully successful job run: every external call succeeds, the downloaded
basename is not dot-initial, and the scratch directories are fresh.  The
handler returns the success response with the derived transcoded key, the
ordered thumbnail keys, the placeholder analysis and the public base URL;
the filesystem is restored to its initial state; and the trace is exactly
one download, two tool spawns and the uploads. -/
theorem handler_success_run (cfg : Config) (ep bkt : String)
    (hcfg : resolveConfig cfg = some (ep, bkt))
    (o : Oracle) (key : String) (n : Nat) (fs0 : FS)
    (hdl : o.downloadRes = Except.ok ())
    (htr : o.transcodeRes = Except.ok ())
    (hth : o.thumbRes = Except.ok n)
    (hup : ∀ k, o.uploadRes k = Except.ok ())
    (hhid : hiddenName (basename key) = false)
    (hdin : ("/tmp/" ++ o.jobId ++ "_input") ∉ fs0.dirs)
    (hdout : ("/tmp/" ++ o.jobId ++ "_output") ∉ fs0.dirs)
    (hfiles : ∀ p ∈ fs0.files, p.1 ≠ "/tmp/" ++ o.jobId ++ "_input" ∧
      p.1 ≠ "/tmp/" ++ o.jobId ++ "_output") :
    handler cfg o ⟨some ⟨some key⟩⟩ fs0 =
      (Except.ok (Response.success
          (("processed/" ++ o.jobId) ++ "/" ++ ((splitext (basename key)).1 ++ "_processed.mp4"))
          ((generate_thumbnails ("/tmp/" ++ o.jobId ++ "_output") n).map
            (fun p => ("processed/" ++ o.jobId) ++ "/thumbnails/" ++ basename p))
          ⟨"pending", aiPendingMsg⟩
          ((cfg.r2PublicUrl.getD defaultPublicUrl) ++ "/" ++ ("processed/" ++ o.jobId))),
       fs0,
       [Event.download bkt key (pathJoin ("/tmp/" ++ o.jobId ++ "_input") (basename key)),
        Event.spawn (transcodeCmd
          (pathJoin ("/tmp/" ++ o.jobId ++ "_input") (basename key))
          (pathJoin ("/tmp/" ++ o.jobId ++ "_output")
            ((splitext (basename key)).1 ++ "_processed.mp4"))),
        Event.spawn (thumbnailCmd
          (pathJoin ("/tmp/" ++ o.jobId ++ "_output")
            ((splitext (basename key)).1 ++ "_processed.mp4"))
          (pathJoin ("/tmp/" ++ o.jobId ++ "_output") "thumb_%03d.jpg")),
        Event.upload (pathJoin ("/tmp/" ++ o.jobId ++ "_output")
            ((splitext (basename key)).1 ++ "_processed.mp4")) bkt
          (("processed/" ++ o.jobId) ++ "/" ++ ((splitext (basename key)).1 ++ "_processed.mp4"))] ++
       (generate_thumbnails ("/tmp/" ++ o.jobId ++ "_output") n).map
         (fun p => Event.upload p bkt (("processed/" ++ o.jobId) ++ "/thumbnails/" ++ basename p))) := by
  have hne : ("/tmp/" ++ o.jobId ++ "_output") ≠ ("/tmp/" ++ o.jobId ++ "_input") :=
    scratch_dirs_ne o.jobId
  have hbn : (("/tmp/" ++ o.jobId ++ "_input"), basename key) ∉ fs0.files := fun hc =>
    (hfiles _ hc).1 rfl
  have htfnmem : (("/tmp/" ++ o.jobId ++ "_output"),
      (splitext (basename key)).1 ++ "_processed.mp4") ∉
      (("/tmp/" ++ o.jobId ++ "_input"), basename key) :: fs0.files := by
    intro hc
    rcases List.mem_cons.mp hc with h | h
    · exact hne (congrArg Prod.fst h)
    · exact (hfiles _ h).2 rfl
  obtain ⟨J, hJfiles, hJmem⟩ := addThumbFiles_files_shape
    ⟨("/tmp/" ++ o.jobId ++ "_output") :: ("/tmp/" ++ o.jobId ++ "_input") :: fs0.dirs,
     (("/tmp/" ++ o.jobId ++ "_output"), (splitext (basename key)).1 ++ "_processed.mp4") ::
       (("/tmp/" ++ o.jobId ++ "_input"), basename key) :: fs0.files⟩
    ("/tmp/" ++ o.jobId ++ "_output") n
  unfold handler
  rw [hcfg]
  dsimp only
  rw [hdl]
  dsimp only
  rw [htr]
  dsimp only
  rw [hth]
  dsimp only
  rw [hup]
  dsimp only
  rw [uploadThumbs_ok o bkt _ hup]
  dsimp only
  rw [mkdir_of_not_mem fs0 _ hdin]
  rw [mkdir_of_not_mem ⟨("/tmp/" ++ o.jobId ++ "_input") :: fs0.dirs, fs0.files⟩
    ("/tmp/" ++ o.jobId ++ "_output")
    (by intro hc; rcases List.mem_cons.mp hc with h | h
        · exact hne h
        · exact hdout h)]
  dsimp only
  rw [addFile_of_not_mem ⟨("/tmp/" ++ o.jobId ++ "_output") ::
    ("/tmp/" ++ o.jobId ++ "_input") :: fs0.dirs, fs0.files⟩ _ _ hbn]
  dsimp only
  rw [addFile_of_not_mem ⟨("/tmp/" ++ o.jobId ++ "_output") ::
    ("/tmp/" ++ o.jobId ++ "_input") :: fs0.dirs,
    (("/tmp/" ++ o.jobId ++ "_input"), basename key) :: fs0.files⟩ _ _ htfnmem]
  dsimp only
  unfold finallyCleanup
  rw [cleanup_scratch_final _ fs0 _ _
    (J ++ [(("/tmp/" ++ o.jobId ++ "_output"), (splitext (basename key)).1 ++ "_processed.mp4"),
           (("/tmp/" ++ o.jobId ++ "_input"), basename key)])
    (by rw [dirs_addThumbFiles])
    (by rw [hJfiles, List.append_assoc]; rfl)
    hne hdin hdout hfiles
    (by intro p hp
        rcases List.mem_append.mp hp with h | h
        · obtain ⟨i, _, _, rfl⟩ := hJmem p h
          exact ⟨Or.inr rfl, thumbChars_not_hidden i⟩
        · rcases List.mem_cons.mp h with rfl | h2
          · exact ⟨Or.inr rfl, transcodedFilename_not_hidden key hhid⟩
          · rcases List.mem_singleton.mp h2 with rfl
            exact ⟨Or.inl rfl, hhid⟩)]
  rfl

/-- C5 (amended): for every job that reaches the publish stage and returns —
all external calls succeed and the downloaded basename is not dot-initial —
the success response's `thumbnail_keys` list is the Thumbnail Set mapped, in
order, to `processed/<job_id>/thumbnails/<thumbnail filename>`: one key per
member, order preserved, and the empty Thumbnail Set yields `[]` with the
job still succeeding. -/
theorem C5_thumbnail_keys_ordered (cfg : Config) (ep bkt : String)
    (hcfg : resolveConfig cfg = some (ep, bkt))
    (o : Oracle) (key : String) (n : Nat) (fs0 : FS)
    (hdl : o.downloadRes = Except.ok ())
    (htr : o.transcodeRes = Except.ok ())
    (hth : o.thumbRes = Except.ok n)
    (hup : ∀ k, o.uploadRes k = Except.ok ())
    (hhid : hiddenName (basename key) = false)
    (hdin : ("/tmp/" ++ o.jobId ++ "_input") ∉ fs0.dirs)
    (hdout : ("/tmp/" ++ o.jobId ++ "_output") ∉ fs0.dirs)
    (hfiles : ∀ p ∈ fs0.files, p.1 ≠ "/tmp/" ++ o.jobId ++ "_input" ∧
      p.1 ≠ "/tmp/" ++ o.jobId ++ "_output") :
    ∃ tk pb,
      (handler cfg o ⟨some ⟨some key⟩⟩ fs0).1 =
        Except.ok (Response.success tk
          ((generate_thumbnails ("/tmp/" ++ o.jobId ++ "_output") n).map
            (fun p => ("processed/" ++ o.jobId) ++ "/thumbnails/" ++ basename p))
          ⟨"pending", aiPendingMsg⟩ pb) := by
  refine ⟨("processed/" ++ o.jobId) ++ "/" ++ ((splitext (basename key)).1 ++ "_processed.mp4"),
    (cfg.r2PublicUrl.getD defaultPublicUrl) ++ "/" ++ ("processed/" ++ o.jobId), ?_⟩
  rw [handler_success_run cfg ep bkt hcfg o key n fs0 hdl htr hth hup hhid hdin hdout hfiles]

/-- Witness for C5 at a concrete job with zero thumbnails: the job still
succeeds and `thumbnail_keys` is empty. -/
theorem C5_thumbnail_keys_ordered_witness :
    (⟨"w5", Except.ok (), Except.ok (), Except.ok 0, fun _ => Except.ok ()⟩ :
      Oracle).thumbRes = Except.ok 0 ∧
    ∃ tk pb,
      (handler ⟨some "a5", some "k5", some "s5", some "b5", none⟩
          ⟨"w5", Except.ok (), Except.ok (), Except.ok 0, fun _ => Except.ok ()⟩
          ⟨some ⟨some "videos/tiny.mov"⟩⟩ FS.empty).1 =
        Except.ok (Response.success tk ([] : List String) ⟨"pending", aiPendingMsg⟩ pb) := by
  refine ⟨rfl, ?_⟩
  have h := C5_thumbnail_keys_ordered ⟨some "a5", some "k5", some "s5", some "b5", none⟩
    "https://a5.r2.cloudflarestorage.com" "b5" rfl
    ⟨"w5", Except.ok (), Except.ok (), Except.ok 0, fun _ => Except.ok ()⟩
    "videos/tiny.mov" 0 FS.empty rfl rfl rfl (fun _ => rfl) (by decide)
    (by simp [FS.empty]) (by simp [FS.empty]) (by simp [FS.empty])
  exact h

/-- C6: for every job with a non-empty `source_video_key` whose run returns
a success response, the transcoded object key in that response equals
`processed/<job_id>/<basename of the key with its final extension
stripped>_processed.mp4`. -/
theorem C6_transcoded_key_shape (cfg : Config) (ep bkt : String)
    (hcfg : resolveConfig cfg = some (ep, bkt))
    (o : Oracle) (key : String) (n : Nat) (fs0 : FS)
    (_hkey : key ≠ "")
    (hdl : o.downloadRes = Except.ok ())
    (htr : o.transcodeRes = Except.ok ())
    (hth : o.thumbRes = Except.ok n)
    (hup : ∀ k, o.uploadRes k = Except.ok ())
    (hhid : hiddenName (basename key) = false)
    (hdin : ("/tmp/" ++ o.jobId ++ "_input") ∉ fs0.dirs)
    (hdout : ("/tmp/" ++ o.jobId ++ "_output") ∉ fs0.dirs)
    (hfiles : ∀ p ∈ fs0.files, p.1 ≠ "/tmp/" ++ o.jobId ++ "_input" ∧
      p.1 ≠ "/tmp/" ++ o.jobId ++ "_output") :
    ∃ ks pb,
      (handler cfg o ⟨some ⟨some key⟩⟩ fs0).1 =
        Except.ok (Response.success
          (("processed/" ++ o.jobId) ++ "/" ++ ((splitext (basename key)).1 ++ "_processed.mp4"))
          ks ⟨"pending", aiPendingMsg⟩ pb) := by
  refine ⟨(generate_thumbnails ("/tmp/" ++ o.jobId ++ "_output") n).map
      (fun p => ("processed/" ++ o.jobId) ++ "/thumbnails/" ++ basename p),
    (cfg.r2PublicUrl.getD defaultPublicUrl) ++ "/" ++ ("processed/" ++ o.jobId), ?_⟩
  rw [handler_success_run cfg ep bkt hcfg o key n fs0 hdl htr hth hup hhid hdin hdout hfiles]

/-- Witness for C6 at the spec's example `videos/clip.mov`: the transcoded
key is `processed/<job_id>/clip_processed.mp4`. -/
theorem C6_transcoded_key_shape_witness :
    ("videos/clip.mov" : String) ≠ "" ∧
    ∃ ks pb,
      (handler ⟨some "a6", some "k6", some "s6", some "b6", none⟩
          ⟨"w6", Except.ok (), Except.ok (), Except.ok 2, fun _ => Except.ok ()⟩
          ⟨some ⟨some "videos/clip.mov"⟩⟩ FS.empty).1 =
        Except.ok (Response.success "processed/w6/clip_processed.mp4"
          ks ⟨"pending", aiPendingMsg⟩ pb) := by
  refine ⟨by decide, ?_⟩
  have h := C6_transcoded_key_shape ⟨some "a6", some "k6", some "s6", some "b6", none⟩
    "https://a6.r2.cloudflarestorage.com" "b6" rfl
    ⟨"w6", Except.ok (), Except.ok (), Except.ok 2, fun _ => Except.ok ()⟩
    "videos/clip.mov" 2 FS.empty (by decide) rfl rfl rfl (fun _ => rfl) (by decide)
    (by simp [FS.empty]) (by simp [FS.empty]) (by simp [FS.empty])
  exact h

theorem lexLe_trans : ∀ a b c : List Char,
    lexLe a b = true → lexLe b c = true → lexLe a c = true
  | [], _, _, _, _ => rfl
  | _ :: _, [], _, h1, _ => by simp [lexLe] at h1
  | _ :: _, _ :: _, [], _, h2 => by simp [lexLe] at h2
  | x :: xs, y :: ys, z :: zs, h1, h2 => by
    simp only [lexLe] at h1 h2 ⊢
    by_cases hxy : x.toNat < y.toNat
    · by_cases hyz : y.toNat < z.toNat
      · rw [if_pos (by omega)]
      · rw [if_neg hyz] at h2
        by_cases hzy : z.toNat < y.toNat
        · rw [if_pos hzy] at h2; exact absurd h2 (by simp)
        · rw [if_neg hzy] at h2
          rw [if_pos (by omega)]
    · rw [if_neg hxy] at h1
      by_cases hyx : y.toNat < x.toNat
      · rw [if_pos hyx] at h1; exact absurd h1 (by simp)
      · rw [if_neg hyx] at h1
        by_cases hyz : y.toNat < z.toNat
        · rw [if_pos (by omega)]
        · rw [if_neg hyz] at h2
          by_cases hzy : z.toNat < y.toNat
          · rw [if_pos hzy] at h2; exact absurd h2 (by simp)
          · rw [if_neg hzy] at h2
            rw [if_neg (by omega), if_neg (by omega)]
            exact lexLe_trans xs ys zs h1 h2

theorem lexLe_total : ∀ a b : List Char, lexLe a b = true ∨ lexLe b a = true
  | [], _ => Or.inl rfl
  | _ :: _, [] => Or.inr rfl
  | x :: xs, y :: ys => by
    simp only [lexLe]
    by_cases hxy : x.toNat < y.toNat
    · exact Or.inl (by rw [if_pos hxy])
    · by_cases hyx : y.toNat < x.toNat
      · exact Or.inr (by rw [if_pos hyx])
      · rcases lexLe_total xs ys with h | h
        · exact Or.inl (by rw [if_neg hxy, if_neg hyx]; exact h)
        · exact Or.inr (by rw [if_neg hyx, if_neg hxy]; exact h)

instance : IsTrans String strLeP :=
  ⟨fun a b c h1 h2 => lexLe_trans a.data b.data c.data h1 h2⟩

instance : IsTotal String strLeP :=
  ⟨fun a b => lexLe_total a.data b.data⟩

theorem digitChar_toNat (x : Nat) (h : x < 10) : (digitChar x).toNat = 48 + x := by
  interval_cases x <;> rfl

theorem natDigitsAux_small (fuel n : Nat) (h : n < 10) :
    natDigitsAux fuel n = [digitChar n] := by
  cases fuel with
  | zero => rfl
  | succ f => simp [natDigitsAux, h]

theorem natDigitsAux_two (fuel m : Nat) (hf : 1 ≤ fuel) (h1 : 10 ≤ m) (h2 : m < 100) :
    natDigitsAux fuel m = [digitChar (m / 10), digitChar (m % 10)] := by
  obtain ⟨f, rfl⟩ : ∃ f, fuel = f + 1 := ⟨fuel - 1, by omega⟩
  rw [natDigitsAux, if_neg (by omega)]
  rw [natDigitsAux_small f (m / 10) (by omega)]
  rfl

theorem natDigits_three (n : Nat) (h1 : 100 ≤ n) (h2 : n < 1000) :
    natDigits n = [digitChar (n / 100), digitChar (n / 10 % 10), digitChar (n % 10)] := by
  unfold natDigits
  obtain ⟨f, hf⟩ : ∃ f, n = f + 1 := ⟨n - 1, by omega⟩
  rw [hf, natDigitsAux, if_neg (by omega)]
  rw [natDigitsAux_two f ((f + 1) / 10) (by omega) (by omega) (by omega)]
  rw [← hf]
  have e1 : n / 10 / 10 = n / 100 := by omega
  rw [e1]
  rfl

/-- The `%03d` field of `thumb_%03d.jpg` for an index up to 999: exactly the
three decimal digits, zero-padded. -/
theorem pad3L_eq (n : Nat) (h : n ≤ 999) :
    pad3L n = [digitChar (n / 100), digitChar (n / 10 % 10), digitChar (n % 10)] := by
  by_cases h1 : n < 10
  · have e0 : natDigits n = [digitChar n] := natDigitsAux_small n n h1
    unfold pad3L
    rw [e0]
    have e1 : n / 100 = 0 := by omega
    have e2 : n / 10 % 10 = 0 := by omega
    have e3 : n % 10 = n := by omega
    rw [e1, e2, e3]
    rfl
  · by_cases h2 : n < 100
    · have e0 : natDigits n = [digitChar (n / 10), digitChar (n % 10)] :=
        natDigitsAux_two n n (by omega) (by omega) h2
      unfold pad3L
      rw [e0]
      have e1 : n / 100 = 0 := by omega
      have e2 : n / 10 % 10 = n / 10 := by omega
      rw [e1, e2]
      rfl
    · have e0 := natDigits_three n (by omega) (by omega)
      unfold pad3L
      rw [e0]
      rfl

theorem lexLe_cons_of_lt (x y : Char) (xs ys : List Char) (h : x.toNat < y.toNat) :
    lexLe (x :: xs) (y :: ys) = true := by
  simp [lexLe, h]

theorem lexLe_cons_of_eq (x : Char) (xs ys : List Char) :
    lexLe (x :: xs) (x :: ys) = lexLe xs ys := by
  simp [lexLe]

theorem lexLe_append_left (p a b : List Char) :
    lexLe (p ++ a) (p ++ b) = lexLe a b := by
  induction p with
  | nil => rfl
  | cons c p ih => simpa [lexLe] using ih

/-- Monotonicity of thumbnail filenames in the three-digit range: for capture
indices `1 ≤ a < b ≤ 999` the names compare in chronological order. -/
theorem thumbChars_le (a b : Nat) (h1 : 1 ≤ a) (h2 : a < b) (h3 : b ≤ 999) :
    lexLe (thumbChars a) (thumbChars b) = true := by
  unfold thumbChars
  rw [List.append_assoc, List.append_assoc, lexLe_append_left]
  rw [pad3L_eq a (by omega), pad3L_eq b h3]
  have hd : a / 100 < b / 100 ∨
      (a / 100 = b / 100 ∧ (a / 10 % 10 < b / 10 % 10 ∨
        (a / 10 % 10 = b / 10 % 10 ∧ a % 10 < b % 10))) := by omega
  have b100 : b / 100 < 10 := by omega
  have a100 : a / 100 < 10 := by omega
  have a10 : a / 10 % 10 < 10 := by omega
  have b10 : b / 10 % 10 < 10 := by omega
  have a1 : a % 10 < 10 := by omega
  have b1 : b % 10 < 10 := by omega
  simp only [List.cons_append, List.nil_append]
  rcases hd with h | ⟨e1, h⟩
  · exact lexLe_cons_of_lt _ _ _ _ (by rw [digitChar_toNat _ a100, digitChar_toNat _ b100]; omega)
  · rw [e1, lexLe_cons_of_eq]
    rcases h with h | ⟨e2, h⟩
    · exact lexLe_cons_of_lt _ _ _ _ (by rw [digitChar_toNat _ a10, digitChar_toNat _ b10]; omega)
    · rw [e2, lexLe_cons_of_eq]
      exact lexLe_cons_of_lt _ _ _ _ (by rw [digitChar_toNat _ a1, digitChar_toNat _ b1]; omega)

theorem pathJoin_thumbName (d : String) (i : Nat) :
    pathJoin d (thumbName i) = d ++ "/" ++ thumbName i := rfl

theorem strLeP_pathJoin_thumbName (d : String) (a b : Nat)
    (h1 : 1 ≤ a) (h2 : a < b) (h3 : b ≤ 999) :
    strLeP (pathJoin d (thumbName a)) (pathJoin d (thumbName b)) := by
  rw [pathJoin_thumbName, pathJoin_thumbName]
  unfold strLeP
  simp only [data_append, List.append_assoc]
  rw [lexLe_append_left, lexLe_append_left]
  exact thumbChars_le a b h1 h2 h3

theorem thumbGlobResult_sorted (outDir : String) (n : Nat) (h : n ≤ 999) :
    (thumbGlobResult outDir n).Pairwise strLeP := by
  unfold thumbGlobResult
  rw [List.pairwise_iff_getElem]
  intro i j hi hj hij
  simp only [List.getElem_map, List.getElem_range]
  have hjn : j < n := by simpa using hj
  exact strLeP_pathJoin_thumbName outDir (i + 1) (j + 1) (by omega) (by omega) (by omega)

/-- C7 (amended): the thumbnail stage's returned path list is always sorted
lexicographically, and for every thumbnail count up to 999 — where the
`%03d` zero-padding covers all indices — this lexicographic order equals the
chronological capture order (index 1 before 2 before 3, ...).  Beyond 999
the four-digit names break the correspondence. -/
theorem C7_lexicographic_chronological (outDir : String) (n : Nat) :
    (generate_thumbnails outDir n).Pairwise strLeP ∧
    (n ≤ 999 → generate_thumbnails outDir n = thumbGlobResult outDir n) := by
  constructor
  · exact List.sorted_insertionSort strLeP _
  · intro h
    unfold generate_thumbnails pySorted
    exact List.Sorted.insertionSort_eq (thumbGlobResult_sorted outDir n h)

/-- Witness for C7 at a concrete directory and three thumbnails. -/
theorem C7_lexicographic_chronological_witness :
    (3 : Nat) ≤ 999 ∧
    generate_thumbnails "/tmp/w7_output" 3 = thumbGlobResult "/tmp/w7_output" 3 :=
  ⟨by decide, (C7_lexicographic_chronological "/tmp/w7_output" 3).2 (by decide)⟩

/-- C7 counterexample: at 1000 thumbnails the sorted list of names no longer
equals the chronological list — `thumb_1000.jpg` sorts before
`thumb_999.jpg` — so lexicographic order does not equal capture order for
every possible number of thumbnails. -/
theorem C7_thousand_thumbnails_cex :
    generate_thumbnails "/tmp/j7_output" 1000 ≠ thumbGlobResult "/tmp/j7_output" 1000 := by
  intro h
  have hs : (generate_thumbnails "/tmp/j7_output" 1000).Pairwise strLeP :=
    List.sorted_insertionSort strLeP _
  rw [h] at hs
  rw [List.pairwise_iff_getElem] at hs
  have h998 : 998 < (thumbGlobResult "/tmp/j7_output" 1000).length := by
    simp [thumbGlobResult]
  have h999 : 999 < (thumbGlobResult "/tmp/j7_output" 1000).length := by
    simp [thumbGlobResult]
  have h2 := hs 998 999 h998 h999 (by omega)
  simp only [thumbGlobResult, List.getElem_map, List.getElem_range] at h2
  exact absurd h2 (by decide)

/-- C5 counterexample: a very short clip (zero thumbnails) whose source
basename is dot-initial: every external step succeeds and the publish stage
runs, yet the job does not succeed — the cleanup failure escapes as an
`OSError` instead of the success response. -/
theorem C5_zero_thumbnails_hidden_cex :
    (handler ⟨some "a3", some "k3", some "s3", some "b3", none⟩
        ⟨"p", Except.ok (), Except.ok (), Except.ok 0, fun _ => Except.ok ()⟩
        ⟨some ⟨some "v/.c5"⟩⟩ FS.empty).1 =
      Except.error (PyErr.osError "Directory not empty: /tmp/p_input") := by
  decide

end MediaEncoder
